import Mathlib

/-!
Verification development for the job-lifecycle reconciliation engine of the
video-generation service (`app/video_generator.py`, `app/routes.py`).

The Python code keeps job records as JSON dictionaries in two Redis hashes:
`tasks_status` (active partition) and `completed_tasks` (terminal partition).
We embed the record shape, the queue-snapshot update, the history resolver,
the artifact download, the cleanup sweep and the merged listing as executable
Lean functions, and prove or refute the specified properties about them.

Timestamps (`time.time()` floats in the source) are modelled as integers;
none of the verified properties depends on fractional seconds.
-/

namespace VideoGen

/-- JSON values as they occur inside a workflow node's `inputs` map:
string literals, numbers, and list values (node references are encoded as
lists `[node_id, slot]` in ComfyUI workflows). -/
inductive JVal where
  | s (v : String)
  | n (v : Int)
  | arr (elems : List JVal)

mutual

def JVal.decEq : (a b : JVal) → Decidable (a = b)
  | .s x, .s y =>
      if h : x = y then .isTrue (congrArg JVal.s h)
      else .isFalse fun hh => h (JVal.s.inj hh)
  | .n x, .n y =>
      if h : x = y then .isTrue (congrArg JVal.n h)
      else .isFalse fun hh => h (JVal.n.inj hh)
  | .arr x, .arr y =>
      match JVal.decEqList x y with
      | .isTrue h => .isTrue (congrArg JVal.arr h)
      | .isFalse h => .isFalse fun hh => h (JVal.arr.inj hh)
  | .s _, .n _ => .isFalse fun h => JVal.noConfusion h
  | .s _, .arr _ => .isFalse fun h => JVal.noConfusion h
  | .n _, .s _ => .isFalse fun h => JVal.noConfusion h
  | .n _, .arr _ => .isFalse fun h => JVal.noConfusion h
  | .arr _, .s _ => .isFalse fun h => JVal.noConfusion h
  | .arr _, .n _ => .isFalse fun h => JVal.noConfusion h

def JVal.decEqList : (a b : List JVal) → Decidable (a = b)
  | [], [] => .isTrue rfl
  | [], _ :: _ => .isFalse fun h => List.noConfusion h
  | _ :: _, [] => .isFalse fun h => List.noConfusion h
  | x :: xs, y :: ys =>
      match JVal.decEq x y, JVal.decEqList xs ys with
      | .isTrue h1, .isTrue h2 => .isTrue (h1 ▸ h2 ▸ rfl)
      | .isFalse h1, _ => .isFalse fun hh => h1 (List.cons.inj hh).1
      | _, .isFalse h2 => .isFalse fun hh => h2 (List.cons.inj hh).2

end

instance : DecidableEq JVal := JVal.decEq

/-- Python truthiness of a JSON value (`if filename:` style checks):
a string is truthy iff nonempty, a number iff nonzero, a list iff nonempty. -/
def JVal.truthy : JVal → Bool
  | .s v => v != ""
  | .n v => v != 0
  | .arr elems => !elems.isEmpty

/-- Python `str()` of a JSON value, as used in `str(positive_node_id)` when
following a KSampler's `positive` reference.  Node ids are strings or
integers in practice; a list never names a node, so its rendering is
irrelevant for lookups and is collapsed to a marker. -/
def JVal.pyStr : JVal → String
  | .s v => v
  | .n v => toString v
  | .arr _ => "<list>"

/-- One node of a job-specification graph: `node.get("class_type")` and the
optional `"inputs"` dictionary. -/
structure Node where
  class_type : Option String := none
  inputs : Option (List (String × JVal)) := none
deriving DecidableEq

/-- A workflow graph: mapping from node id to node, in dict iteration
(insertion) order. -/
abbrev Workflow := List (String × Node)

/-- The value of input `k` of a node, when the node has an `inputs` dict
containing `k` (`"inputs" in node and k in node["inputs"]`). -/
def Node.input (node : Node) (k : String) : Option JVal :=
  node.inputs.bind (fun ins => ins.lookup k)

/-- One iteration of the prompt-extraction loop of `_update_queue_status`
(lines 237-256 for running tasks; the pending-task branch is identical):
the `if/elif` ladder applied to a single node; `some v` means the branch
assigned `task_info["prompt"] = v` and executed `break`.  The `KSampler`
pattern follows the node's `positive` input, a `[node_id, slot]` list, to
the referenced node's `text` input, consulting the whole graph `wf`;
when any of its inner conditions fails the loop simply continues. -/
def matchPromptNode (wf : Workflow) (node : Node) : Option JVal :=
  if node.class_type = some "CLIPTextEncode" then node.input "text"
  else if node.class_type = some "WanVideoTextEncode" then node.input "positive_prompt"
  else if node.class_type = some "BizyAir_CLIPTextEncode" then node.input "text"
  else if node.class_type = some "KSampler" then
    match node.input "positive" with
    | some (.arr (x :: _ :: _)) =>
        match wf.lookup x.pyStr with
        | some positive_node => positive_node.input "text"
        | none => none
    | _ => none
  else none

/-- Helper: first node of `nodes` matching a prompt pattern, with the
reference lookup done against the full graph `wf`. -/
def extractPromptGo (wf : Workflow) : List (String × Node) → Option JVal
  | [] => none
  | (_, node) :: rest =>
      match matchPromptNode wf node with
      | some v => some v
      | none => extractPromptGo wf rest

/-- Prompt extraction used when updating an existing record from the queue
snapshot (`_update_queue_status`, lines 237-256 and 330-349): iterate the
graph's nodes in order and stop at the first node matching one of the four
patterns (`break`). -/
def extractPromptUpdate (wf : Workflow) : Option JVal :=
  extractPromptGo wf wf

/-- The model pattern of the queue-snapshot update (lines 261-267, 354-360):
a `WanVideoModelLoader` node's `model` input; if the value is a string
containing `/`, only the segment before the first `/` is kept. -/
def matchModelNode (node : Node) : Option JVal :=
  if node.class_type = some "WanVideoModelLoader" then
    match node.input "model" with
    | some (.s name) =>
        if (name.splitOn "/").length ≥ 2 then some (.s ((name.splitOn "/").headD name))
        else some (.s name)
    | some v => some v
    | none => none
  else none

/-- Model extraction for an existing record: first matching node (`break`). -/
def extractModelUpdate : Workflow → Option JVal
  | [] => none
  | (_, node) :: rest =>
      match matchModelNode node with
      | some v => some v
      | none => extractModelUpdate rest

/-- Prompt and model extraction used when the snapshot update creates a brand
new record (lines 279-289 and 372-382): the same loop but with no `break`,
so the assignment of the LAST matching node wins, and only the
`CLIPTextEncode`/`WanVideoTextEncode` prompt patterns are checked. -/
def extractPromptModelNew (wf : Workflow) : Option JVal × Option JVal :=
  wf.foldl
    (fun acc p =>
      let node := p.2
      let prompt :=
        if node.class_type = some "CLIPTextEncode" ∧ (node.input "text").isSome then
          node.input "text"
        else if node.class_type = some "WanVideoTextEncode" ∧
            (node.input "positive_prompt").isSome then
          node.input "positive_prompt"
        else acc.1
      let model :=
        match matchModelNode node with
        | some v => some v
        | none => acc.2
      (prompt, model))
    (none, none)

/-! ## Job records and the two-partition store -/

/-- A job record, as stored (JSON-serialized) in the Redis hashes.  A field of
type `Option (Option JVal)` models a JSON dictionary key that can be absent
(`none`), present with value `null` (`some none`), or present with a value
(`some (some v)`); key absence matters because the source guards extraction
with `"prompt" not in task_info`.  Fields the source only ever writes with a
proper value are modelled as plain `Option`, `none` meaning the key is
absent.  `typ` stands for the `"type"` key of the record. -/
structure TaskInfo where
  status : String
  message : String := ""
  prompt : Option (Option JVal) := none
  model : Option (Option JVal) := none
  processing_started : Option Int := none
  processing_time : Option Int := none
  waiting_started : Option Int := none
  waiting_time : Option Int := none
  queue_position : Option Int := none
  last_updated : Option Int := none
  created_at : Option Int := none
  completed_at : Option Int := none
  output_path : Option String := none
  typ : Option String := none
  preview_url : Option String := none
  seed : Option Int := none
deriving DecidableEq

/-- A value stored in one of the Redis hashes: either a JSON blob that
`json.loads` parses into a record, or a corrupt blob on which `json.loads`
raises. -/
inductive TaskVal where
  | parsed (t : TaskInfo)
  | corrupt
deriving DecidableEq

/-- The job record store: the `tasks_status` hash (active partition) and the
`completed_tasks` hash (terminal partition), each a finite map from job id
to stored value, modelled as an association list. -/
structure Store where
  tasks_status : List (String × TaskVal) := []
  completed_tasks : List (String × TaskVal) := []
deriving DecidableEq

/-- Hash lookup (`redis.hget`). -/
def alookup {α : Type} (k : String) : List (String × α) → Option α
  | [] => none
  | p :: rest => if p.1 = k then some p.2 else alookup k rest

/-- Hash field removal (`redis.hdel`). -/
def aerase {α : Type} (k : String) : List (String × α) → List (String × α)
  | [] => []
  | p :: rest => if p.1 = k then aerase k rest else p :: aerase k rest

/-- Hash field write (`redis.hset`): replaces any previous binding of `k`. -/
def aset {α : Type} (k : String) (v : α) (l : List (String × α)) :
    List (String × α) :=
  (k, v) :: aerase k l

theorem alookup_aset_self {α : Type} (k : String) (v : α) (l : List (String × α)) :
    alookup k (aset k v l) = some v := by
  simp [aset, alookup]

theorem alookup_aerase {α : Type} (k k' : String) (l : List (String × α)) :
    alookup k' (aerase k l) = if k' = k then none else alookup k' l := by
  induction l with
  | nil => simp [aerase, alookup]
  | cons p rest ih =>
      by_cases hp : p.1 = k
      · rw [aerase, if_pos hp, ih]
        by_cases hk : k' = k
        · simp [hk]
        · have hpk : ¬p.1 = k' := fun hh => hk (hp ▸ hh).symm
          simp [hk, alookup, hpk]
      · rw [aerase, if_neg hp]
        by_cases hpk : p.1 = k'
        · have hkk : ¬k' = k := fun hh => hp (hh ▸ hpk)
          simp [alookup, hpk, hkk]
        · simp [alookup, hpk, ih]

theorem alookup_aset {α : Type} (k k' : String) (v : α) (l : List (String × α)) :
    alookup k' (aset k v l) =
      if k' = k then some v else alookup k' l := by
  by_cases h : k' = k
  · subst h; simp [alookup_aset_self]
  · have hk : ¬k = k' := fun hh => h hh.symm
    simp only [aset, alookup, if_neg hk, alookup_aerase, if_neg h]

theorem mem_aerase {α : Type} {p : String × α} {k : String}
    {l : List (String × α)} (h : p ∈ aerase k l) : p ∈ l ∧ p.1 ≠ k := by
  induction l with
  | nil => simp [aerase] at h
  | cons q rest ih =>
      by_cases hq : q.1 = k
      · simp only [aerase, hq, if_true] at h
        exact ⟨List.mem_cons_of_mem _ (ih h).1, (ih h).2⟩
      · simp only [aerase, hq, if_false, List.mem_cons] at h
        rcases h with h | h
        · exact ⟨h ▸ List.mem_cons_self .., h ▸ hq⟩
        · exact ⟨List.mem_cons_of_mem _ (ih h).1, (ih h).2⟩

theorem mem_aset {α : Type} {p : String × α} {k : String} {v : α}
    {l : List (String × α)} (h : p ∈ aset k v l) :
    p = (k, v) ∨ (p ∈ l ∧ p.1 ≠ k) := by
  rcases List.mem_cons.mp h with h | h
  · exact Or.inl h
  · exact Or.inr (mem_aerase h)

theorem mem_of_alookup_eq_some {α : Type} {k : String} {v : α}
    {l : List (String × α)} (h : alookup k l = some v) : (k, v) ∈ l := by
  induction l with
  | nil => simp [alookup] at h
  | cons p rest ih =>
      by_cases hp : p.1 = k
      · simp only [alookup, hp, if_true, Option.some.injEq] at h
        subst h
        cases p
        simp_all
      · simp only [alookup, hp, if_false] at h
        exact List.mem_cons_of_mem _ (ih h)

/-! ## Queue-snapshot updates (`_update_queue_status`, running and pending phases) -/

/-- Prompt/model extraction tail of the snapshot update of an existing
record: each field is extracted only when its key is absent
(`"prompt" not in task_info`), and left absent when no pattern matches. -/
def tickExtractFields (ti : TaskInfo) (wf : Option Workflow) : TaskInfo :=
  { ti with
    prompt :=
      if ti.prompt = none then
        match wf with
        | some w =>
            match extractPromptUpdate w with
            | some v => some (some v)
            | none => ti.prompt
        | none => ti.prompt
      else ti.prompt,
    model :=
      if ti.model = none then
        match wf with
        | some w =>
            match extractModelUpdate w with
            | some v => some (some v)
            | none => ti.model
        | none => ti.model
      else ti.model }

/-- Update of an existing active record for a running snapshot entry
(`_update_queue_status` lines 224-269): set status/message, set
`processing_started` only if the key is absent, recompute
`processing_time` and `last_updated`, then extract missing prompt/model. -/
def tickProcessRecord (ti0 : TaskInfo) (wf : Option Workflow) (now : Int) :
    TaskInfo :=
  let ti := { ti0 with status := "processing", message := "任务正在处理中" }
  let ti :=
    if ti.processing_started = none then { ti with processing_started := some now }
    else ti
  let ti := { ti with
    processing_time := some (now - ti.processing_started.getD now),
    last_updated := some now }
  tickExtractFields ti wf

/-- Update of an existing active record for a pending snapshot entry at
0-based queue index `pos` (`_update_queue_status` lines 316-362). -/
def tickPendingRecord (ti0 : TaskInfo) (wf : Option Workflow) (pos : Nat)
    (now : Int) : TaskInfo :=
  let ti := { ti0 with
    status := "pending",
    message := "正在等待队列中，位置: " ++ toString (pos + 1),
    queue_position := some (Int.ofNat (pos + 1)) }
  let ti :=
    if ti.waiting_started = none then { ti with waiting_started := some now }
    else ti
  let ti := { ti with
    waiting_time := some (now - ti.waiting_started.getD now),
    last_updated := some now }
  tickExtractFields ti wf

/-- Fresh record created for a running snapshot entry not yet in the store
(`_update_queue_status` lines 271-301); prompt/model keys are always
present, possibly with `null` value, as in `new_task_info`. -/
def newRunningRecord (wf : Option Workflow) (now : Int) : TaskInfo :=
  let pm := match wf with | some w => extractPromptModelNew w | none => (none, none)
  { status := "processing", message := "任务正在处理中",
    processing_started := some now, processing_time := some 0,
    last_updated := some now, created_at := some now,
    prompt := some pm.1, model := some pm.2 }

/-- Fresh record created for a pending snapshot entry
(`_update_queue_status` lines 364-395). -/
def newPendingRecord (wf : Option Workflow) (pos : Nat) (now : Int) : TaskInfo :=
  let pm := match wf with | some w => extractPromptModelNew w | none => (none, none)
  { status := "pending",
    message := "正在等待队列中，位置: " ++ toString (pos + 1),
    queue_position := some (Int.ofNat (pos + 1)),
    waiting_started := some now, waiting_time := some 0,
    last_updated := some now, created_at := some now,
    prompt := some pm.1, model := some pm.2 }

/-- One entry of the remote queue snapshot: entries shorter than two
elements are skipped (`if len(task) >= 2`); otherwise `task[1]` is the job
id and `task[2]`, when present and a dict, is the embedded workflow. -/
inductive QTask where
  | malformed
  | well (id : String) (workflow : Option Workflow)

/-- Processing of one running snapshot entry against the store.  A corrupt
stored record makes `json.loads` raise, aborting the whole tick
(`.error`). -/
def updateRunningTask (s : Store) (task : QTask) (now : Int) :
    Except Unit Store :=
  match task with
  | .malformed => .ok s
  | .well task_id wf =>
      match alookup task_id s.tasks_status with
      | some .corrupt => .error ()
      | some (.parsed ti) =>
          .ok { s with
            tasks_status :=
              aset task_id (.parsed (tickProcessRecord ti wf now)) s.tasks_status }
      | none =>
          .ok { s with
            tasks_status :=
              aset task_id (.parsed (newRunningRecord wf now)) s.tasks_status }

/-- Processing of one pending snapshot entry at 0-based index `pos`. -/
def updatePendingTask (s : Store) (task : QTask) (pos : Nat) (now : Int) :
    Except Unit Store :=
  match task with
  | .malformed => .ok s
  | .well task_id wf =>
      match alookup task_id s.tasks_status with
      | some .corrupt => .error ()
      | some (.parsed ti) =>
          .ok { s with
            tasks_status :=
              aset task_id (.parsed (tickPendingRecord ti wf pos now)) s.tasks_status }
      | none =>
          .ok { s with
            tasks_status :=
              aset task_id (.parsed (newPendingRecord wf pos now)) s.tasks_status }

/-- Record creation at submission time (`generate_video` lines 959-975):
status `pending`, prompt/model keys present with the caller's strings.
Optional batch-grouping fields are not modelled. -/
def submitCreate (s : Store) (prompt_id promptText modelName : String)
    (now seed : Int) : Store :=
  { s with
    tasks_status :=
      aset prompt_id
        (.parsed { status := "pending", message := "Task initialized",
                   prompt := some (some (.s promptText)),
                   model := some (some (.s modelName)),
                   created_at := some now, seed := some seed })
        s.tasks_status }

/-- The `DELETE /api/task/<task_id>` route (`routes.py` lines 723-745):
remove the id from both partitions. -/
def deleteTaskRoute (s : Store) (task_id : String) : Store :=
  { tasks_status := aerase task_id s.tasks_status,
    completed_tasks := aerase task_id s.completed_tasks }

/-! ## Primitive store operations and relocation traces -/

/-- A primitive Redis hash operation on one of the two partitions. -/
inductive StoreOp where
  | hsetActive (id : String) (v : TaskVal)
  | hdelActive (id : String)
  | hsetCompleted (id : String) (v : TaskVal)
  | hdelCompleted (id : String)

def applyOp (s : Store) : StoreOp → Store
  | .hsetActive id v => { s with tasks_status := aset id v s.tasks_status }
  | .hdelActive id => { s with tasks_status := aerase id s.tasks_status }
  | .hsetCompleted id v => { s with completed_tasks := aset id v s.completed_tasks }
  | .hdelCompleted id => { s with completed_tasks := aerase id s.completed_tasks }

def runOps : Store → List StoreOp → Store :=
  List.foldl applyOp

/-- The store-operation trace of relocating stored value `v` of job `id`
to the terminal partition: first `hset` into `completed_tasks`, then
`hdel` from `tasks_status` (`video_generator.py` lines 421-422, and
likewise 1178-1179 and 1188-1189). -/
def relocateOps (id : String) (v : TaskVal) : List StoreOp :=
  [.hsetCompleted id v, .hdelActive id]

/-- The completed relocation, as a single store-to-store function. -/
def relocate (s : Store) (id : String) (v : TaskVal) : Store :=
  runOps s (relocateOps id v)

/-! ## Artifact download (`_download_video`, lines 1114-1147) -/

/-- Engine endpoints and output directory used by the resolver. -/
structure EngineConfig where
  COMFYUI_URL : String := "http://comfyui"
  OUTPUT_DIR : String := "static/output"
deriving DecidableEq

/-- The local filesystem, as the set of paths at which a file exists. -/
structure FS where
  files : List String := []
deriving DecidableEq

/-- `os.path.join(dir, name)` for a directory and a relative file name. -/
def ospJoin (dir name : String) : String := dir ++ "/" ++ name

/-- `_download_video(url, local_path)`: ensure the directory exists (a
no-op in this model), return immediately when a file already exists at
`local_path`, otherwise fetch `url`.  `net url` says whether the HTTP
fetch succeeds; `raise_for_status` fires before the local file is opened,
so a failed fetch leaves the filesystem unchanged and the error
propagates (`raise`).  The second component counts network downloads
performed by the call. -/
def downloadVideo (net : String → Bool) (fs : FS) (url local_path : String) :
    Except Unit (FS × Nat) :=
  if local_path ∈ fs.files then .ok (fs, 0)
  else if net url then .ok (⟨local_path :: fs.files⟩, 1)
  else .error ()

/-! ## History resolver (`_check_task_history`, lines 436-622) -/

/-- One element of an output node's `gifs` list; `filename` is
`video_info.get("filename")`. -/
structure GifInfo where
  filename : Option JVal := none
deriving DecidableEq

/-- One element of an output node's `images` list; a missing or non-string
`"filename"` makes the direct indexing / `os.path.join` raise. -/
structure ImageInfo where
  filename : Option JVal := none
deriving DecidableEq

/-- One entry of the history record's `outputs` mapping; each field is
`some` exactly when the corresponding key is present. -/
structure OutputEntry where
  gifs : Option (List GifInfo) := none
  animated : Option (List JVal) := none
  images : Option (List ImageInfo) := none
deriving DecidableEq

/-- The history record's `status` dictionary, when present and nonempty
(Python dict truthiness).  `completed` is the truthiness of
`status.get("completed")`; `status_str` is the `status_str` value when it
is a string (a missing or non-string value never equals `"success"` or
`"error"`, which is all the source compares it against). -/
structure StatusObj where
  completed : Bool := false
  status_str : Option String := none
deriving DecidableEq

/-- The parts of the history record's `prompt` list that the source reads:
`workflow` is `prompt_data[2]` when the list has length at least 3 and
that element is a dict; `clientModel` is `prompt_data[3]["model"]` when
the list has length at least 4, `prompt_data[3]` is a dict and it has a
`model` key. -/
structure PromptData where
  workflow : Option Workflow := none
  clientModel : Option JVal := none
deriving DecidableEq

/-- One per-job history record; `statusObj = none` covers both an absent
`status` key and an empty `status` dict (both falsy after
`.get("status", \x7b\x7d)`). -/
structure TaskHistory where
  promptData : PromptData := {}
  outputs : Option (List (String × OutputEntry)) := none
  statusObj : Option StatusObj := none
deriving DecidableEq

/-- Outcome of the HTTP call `GET /history/<task_id>`: a parsed 200 body
(mapping job ids to history records), a 404, another status code, or a
raised connection/parse error. -/
inductive HistResponse where
  | ok (body : List (String × TaskHistory))
  | notFound
  | httpError (code : Nat)
  | netError
deriving DecidableEq

/-- A resolver outcome: the dictionary returned by `_check_task_history`.
An `Option` field is `some` exactly when the corresponding key is present
in the returned dict, which matters for the `task_data.update(...)` merge. -/
structure HistoryResult where
  status : String
  message : String
  prompt : Option (Option JVal) := none
  model : Option (Option JVal) := none
  output_path : Option String := none
  typ : Option String := none
  preview_url : Option String := none
deriving DecidableEq

/-- Prompt extraction from the history workflow (lines 453-466): only the
`CLIPTextEncode` and `WanVideoTextEncode` patterns, first match (`break`). -/
def historyExtractPrompt : Workflow → Option JVal
  | [] => none
  | (_, node) :: rest =>
      if node.class_type = some "CLIPTextEncode" ∧ (node.input "text").isSome then
        node.input "text"
      else if node.class_type = some "WanVideoTextEncode" ∧
          (node.input "positive_prompt").isSome then
        node.input "positive_prompt"
      else historyExtractPrompt rest

/-- `model_name.split("/")[0]` applied under the source's
`"/" in model_name` guard; for a string without `/` the guard leaves the
name unchanged, which coincides with the head of the split. -/
def headOfSplitName (name : String) : String :=
  if (name.splitOn "/").length ≥ 2 then (name.splitOn "/").headD name else name

/-- Model extraction from the history workflow (lines 477-489):
`UNETLoader`'s `unet_name` with every `.safetensors` occurrence removed
(`str.replace`), else `WanVideoModelLoader`'s `model`; first match
(`break`).  A non-string `unet_name` makes `.replace` raise
`AttributeError`, which the surrounding `(IndexError, KeyError,
TypeError)` handler does not catch, so it escapes to the resolver's outer
handler. -/
def historyWfModel : Workflow → Except Unit (Option JVal)
  | [] => .ok none
  | (_, node) :: rest =>
      if node.class_type = some "UNETLoader" ∧ (node.input "unet_name").isSome then
        match node.input "unet_name" with
        | some (.s name) => .ok (some (.s (name.replace ".safetensors" "")))
        | _ => .error ()
      else if node.class_type = some "WanVideoModelLoader" ∧
          (node.input "model").isSome then
        match node.input "model" with
        | some (.s name) => .ok (some (.s (headOfSplitName name)))
        | some v => .ok (some v)
        | none => .ok none
      else historyWfModel rest

/-- Model extraction of the resolver (lines 469-491): the client-data
`model` first; when it is missing or falsy (`if not model`), scan the
workflow; when the scan finds nothing the client value, possibly falsy,
is kept. -/
def historyExtractModel (pd : PromptData) : Except Unit (Option JVal) := do
  let m0 := pd.clientModel
  if (match m0 with | some v => v.truthy | none => false) then
    pure m0
  else
    match pd.workflow with
    | none => pure m0
    | some wf =>
        match ← historyWfModel wf with
        | some v => pure (some v)
        | none => pure m0

/-- The `animated` check of the outputs scan (lines 536-538): key present,
list truthy, first element truthy. -/
def outputIsAnimated (output : OutputEntry) : Bool :=
  match output.animated with
  | some (v :: _) => v.truthy
  | _ => false

/-- The `gifs` branch of the outputs scan (lines 514-533): when the entry
has a nonempty `gifs` list whose first element has a truthy filename,
download the video and return the completed result; a truthy non-string
filename raises in `os.path.join` (`.error`); otherwise fall through
(`none`). -/
def gifsStep (cfg : EngineConfig) (net : String → Bool) (fs : FS)
    (output : OutputEntry) : Except Unit (Option HistoryResult) :=
  match output.gifs with
  | some (video_info :: _) =>
      match video_info.filename with
      | some fv =>
          if fv.truthy then
            match fv with
            | .s filename =>
                match downloadVideo net fs
                    (cfg.COMFYUI_URL ++ "/view?filename=" ++ filename)
                    (ospJoin cfg.OUTPUT_DIR filename) with
                | .ok _ =>
                    .ok (some
                      { status := "completed", message := "视频生成完成",
                        output_path := some (ospJoin cfg.OUTPUT_DIR filename),
                        typ := some "video",
                        preview_url := some ("/static/output/" ++ filename) })
                | .error _ => .error ()
            | _ => .error ()
          else .ok none
      | none => .ok none
  | _ => .ok none

/-- The `images` branch of the outputs scan (lines 541-559): unconditional
indexing of `output["images"][0]["filename"]` raises on a missing or
non-string filename; the download URL carries `&type=temp` exactly when
the output is not animated. -/
def imagesStep (cfg : EngineConfig) (net : String → Bool) (fs : FS)
    (output : OutputEntry) : Except Unit (Option HistoryResult) :=
  match output.images with
  | some (image_info :: _) =>
      match image_info.filename with
      | some (.s filename) =>
          match downloadVideo net fs
              (if outputIsAnimated output then
                cfg.COMFYUI_URL ++ "/view?filename=" ++ filename
              else
                cfg.COMFYUI_URL ++ "/view?filename=" ++ filename ++ "&type=temp")
              (ospJoin cfg.OUTPUT_DIR filename) with
          | .ok _ =>
              .ok (some
                { status := "completed",
                  message :=
                    if outputIsAnimated output then "视频生成完成" else "图片生成完成",
                  output_path := some (ospJoin cfg.OUTPUT_DIR filename),
                  typ := some (if outputIsAnimated output then "video" else "image"),
                  preview_url := some ("/static/output/" ++ filename) })
          | .error _ => .error ()
      | _ => .error ()
  | _ => .ok none

/-- Scan of the history record's outputs (lines 513-559): per entry the
`gifs` branch, then the `images` branch; `some r` is an early `return r`,
`none` falls off the loop to the next entry. -/
def processOutputs (cfg : EngineConfig) (net : String → Bool) (fs : FS) :
    List (String × OutputEntry) → Except Unit (Option HistoryResult)
  | [] => .ok none
  | (_, output) :: rest =>
      match gifsStep cfg net fs output with
      | .error _ => .error ()
      | .ok (some r) => .ok (some r)
      | .ok none =>
          match imagesStep cfg net fs output with
          | .error _ => .error ()
          | .ok (some r) => .ok (some r)
          | .ok none => processOutputs cfg net fs rest

/-- The prompt value the resolver extracts from a history record
(lines 452-466). -/
def historyPrompt (th : TaskHistory) : Option JVal :=
  match th.promptData.workflow with
  | some wf => historyExtractPrompt wf
  | none => none

/-- Body of `_check_task_history` inside its `try` block; `.error` is a
raised exception.  A 200 body without the job id reaches the dedented
`status = task_history.get(...)` line (572) with `task_history` unbound,
raising `NameError` (`.error`). -/
def checkTaskHistoryBody (cfg : EngineConfig) (net : String → Bool) (fs : FS)
    (task_id : String) (resp : HistResponse) : Except Unit HistoryResult :=
  match resp with
  | .netError => .error ()
  | .notFound => .ok { status := "error", message := "在历史记录中未找到任务" }
  | .httpError code =>
      .ok { status := "error",
            message := "检查历史记录失败: HTTP " ++ toString code }
  | .ok body =>
      match alookup task_id body with
      | none => .error ()
      | some th =>
          match historyExtractModel th.promptData with
          | .error _ => .error ()
          | .ok model =>
              match (match th.outputs with
                     | some outputs => processOutputs cfg net fs outputs
                     | none => .ok none) with
              | .error _ => .error ()
              | .ok (some r) => .ok r
              | .ok none =>
                  if (th.statusObj.getD {}).completed ∧
                      (th.statusObj.getD {}).status_str = some "success" then
                    .ok { status := "completed", message := "任务已完成但未找到输出",
                          prompt := some (historyPrompt th), model := some model }
                  else
                    match th.statusObj with
                    | some st =>
                        if st.completed then
                          if st.status_str = some "error" then
                            .ok { status := "error", message := "任务在ComfyUI中失败",
                                  prompt := some (historyPrompt th),
                                  model := some model }
                          else
                            .ok { status := "completed", message := "任务已完成",
                                  prompt := some (historyPrompt th),
                                  model := some model }
                        else
                          .ok { status := "processing", message := "任务仍在处理中",
                                prompt := some (historyPrompt th),
                                model := some model }
                    | none =>
                        .ok { status := "unknown", message := "无法确定任务状态",
                              prompt := some (historyPrompt th),
                              model := some model }

/-- `_check_task_history`: the body with its catch-all handler; any raised
exception becomes the generic error outcome. -/
def checkTaskHistory (cfg : EngineConfig) (net : String → Bool) (fs : FS)
    (task_id : String) (resp : HistResponse) : HistoryResult :=
  match checkTaskHistoryBody cfg net fs task_id resp with
  | .ok r => r
  | .error _ => { status := "error", message := "检查任务历史记录失败" }

/-! ## History phase of the tick and the cleanup sweep -/

/-- `task_data.update(history_result)`: every key present in the resolver
outcome overwrites the record's value; absent keys leave the record
untouched. -/
def applyUpdate (t : TaskInfo) (h : HistoryResult) : TaskInfo :=
  { t with
    status := h.status,
    message := h.message,
    prompt := match h.prompt with | some v => some v | none => t.prompt,
    model := match h.model with | some v => some v | none => t.model,
    output_path := match h.output_path with | some v => some v | none => t.output_path,
    typ := match h.typ with | some v => some v | none => t.typ,
    preview_url := match h.preview_url with | some v => some v | none => t.preview_url }

/-- Per-record history phase of `_update_queue_status` (lines 398-425) for
one job id absent from the current snapshot, given the resolver outcome
`hist`.  The source's `if history_result:` guard is always true since the
resolver returns a nonempty dict.  A terminal merged status relocates the
record (write-then-delete); otherwise the merged record is written back
to the active partition. -/
def mergeRecord (task_data : TaskInfo) (hist : HistoryResult) (now : Int) :
    TaskInfo :=
  { applyUpdate task_data hist with last_updated := some now }

def historyStep (s : Store) (task_id : String) (hist : HistoryResult)
    (now : Int) : Except Unit Store :=
  match alookup task_id s.tasks_status with
  | none => .ok s
  | some .corrupt => .error ()
  | some (.parsed task_data) =>
      if task_data.status = "completed" ∨ task_data.status = "error" then .ok s
      else if (mergeRecord task_data hist now).status = "completed" ∨
          (mergeRecord task_data hist now).status = "error" then
        .ok (relocate s task_id
          (.parsed { mergeRecord task_data hist now with completed_at := some now }))
      else
        .ok { s with
          tasks_status :=
            aset task_id (.parsed (mergeRecord task_data hist now)) s.tasks_status }

/-- The record the cleanup sweep stores for a resolved unknown-status task:
`json.dumps(history_result)` alone, not merged into the old record
(line 1188). -/
def taskInfoOfHistoryResult (h : HistoryResult) : TaskInfo :=
  { status := h.status, message := h.message, prompt := h.prompt,
    model := h.model, output_path := h.output_path, typ := h.typ,
    preview_url := h.preview_url }

/-- Processing of one record by `_cleanup_old_tasks` (lines 1170-1190):
an error-status record untouched for over an hour is relocated to the
terminal partition unchanged; an unknown-status record is re-resolved and
relocated when the outcome is terminal; a corrupt stored value makes
`json.loads` raise (`.error`). -/
def cleanupEntry (resolve : String → HistoryResult) (now : Int) (s : Store)
    (entry : String × TaskVal) : Except Unit Store :=
  match entry.2 with
  | .corrupt => .error ()
  | .parsed task_data =>
      if task_data.status = "error" then
        if (match task_data.last_updated with
            | some lu => decide (now - lu > 3600)
            | none => false) then
          .ok (relocate s entry.1 (.parsed task_data))
        else .ok s
      else if task_data.status = "unknown" then
        if (resolve entry.1).status = "completed" ∨
            (resolve entry.1).status = "error" then
          .ok (relocate s entry.1
            (.parsed (taskInfoOfHistoryResult (resolve entry.1))))
        else .ok s
      else .ok s

/-- The cleanup sweep over a snapshot of the active partition; the single
`try/except` around the whole loop means the first raising record ends
the sweep, keeping the updates made so far. -/
def cleanupList (resolve : String → HistoryResult) (now : Int) :
    Store → List (String × TaskVal) → Store
  | s, [] => s
  | s, e :: rest =>
      match cleanupEntry resolve now s e with
      | .ok s2 => cleanupList resolve now s2 rest
      | .error _ => s

/-- `_cleanup_old_tasks` (lines 1163-1193): sweep over `hgetall`'s
snapshot of the active partition.  The terminal partition is only ever
written, never scanned or pruned. -/
def cleanupOldTasks (resolve : String → HistoryResult) (s : Store)
    (now : Int) : Store :=
  cleanupList resolve now s s.tasks_status

/-! ## Merged task listings -/

/-- One entry of the merge of `get_all_tasks_status` (lines 1211-1232):
parse the stored blob and assign `all_tasks[task_id] = task_info`,
skipping entries that fail to parse. -/
def mergeStep (acc : List (String × TaskInfo)) (p : String × TaskVal) :
    List (String × TaskInfo) :=
  match p.2 with
  | .parsed t => aset p.1 t acc
  | .corrupt => acc

/-- `get_all_tasks_status` (lines 1195-1240): build the merged mapping,
active entries first, then terminal entries (so a terminal entry wins for
a duplicated id); per-entry parse failures are logged and skipped. -/
def getAllTasksStatus (s : Store) : List (String × TaskInfo) :=
  s.completed_tasks.foldl mergeStep (s.tasks_status.foldl mergeStep [])

/-- One entry of the merge of `GET /api/task-status` (`routes.py` lines
670-680): same assignment, but a parse failure raises. -/
def mergeStepE (acc : List (String × TaskInfo)) (p : String × TaskVal) :
    Except Unit (List (String × TaskInfo)) :=
  match p.2 with
  | .parsed t => .ok (aset p.1 t acc)
  | .corrupt => .error ()

/-- `GET /api/task-status` (`routes.py` lines 654-687): the same merge in
the same order, but without per-entry handlers, so any parse failure
aborts the request (HTTP 500). -/
def routeTaskStatus (s : Store) : Except Unit (List (String × TaskInfo)) := do
  let m1 ← s.tasks_status.foldlM mergeStepE []
  s.completed_tasks.foldlM mergeStepE m1

/-! ## The partition invariant -/

/-- A value allowed to sit in the active partition: a parsed record must
not carry a terminal status. -/
def activeValOK : TaskVal → Prop
  | .parsed t => ¬(t.status = "completed" ∨ t.status = "error")
  | .corrupt => True

/-- A value allowed to sit in the terminal partition: a parsed record must
carry a terminal status. -/
def terminalValOK : TaskVal → Prop
  | .parsed t => t.status = "completed" ∨ t.status = "error"
  | .corrupt => True

instance instDecActiveValOK : (v : TaskVal) → Decidable (activeValOK v)
  | .parsed t =>
      inferInstanceAs (Decidable (¬(t.status = "completed" ∨ t.status = "error")))
  | .corrupt => inferInstanceAs (Decidable True)

instance instDecTerminalValOK : (v : TaskVal) → Decidable (terminalValOK v)
  | .parsed t =>
      inferInstanceAs (Decidable (t.status = "completed" ∨ t.status = "error"))
  | .corrupt => inferInstanceAs (Decidable True)

/-- The claimed placement invariant over the two partitions: no id stored
in the active partition is also stored in the terminal partition (so every
known id is held in exactly one), active records are non-terminal
(pending/processing/unknown), and terminal records are completed/error. -/
def partitionInvariant (s : Store) : Prop :=
  (∀ p ∈ s.tasks_status,
      alookup p.1 s.completed_tasks = none ∧ activeValOK p.2) ∧
  (∀ p ∈ s.completed_tasks, terminalValOK p.2)

instance instDecPartitionInvariant (s : Store) :
    Decidable (partitionInvariant s) :=
  inferInstanceAs (Decidable
    ((∀ p ∈ s.tasks_status,
        alookup p.1 s.completed_tasks = none ∧ activeValOK p.2) ∧
     (∀ p ∈ s.completed_tasks, terminalValOK p.2)))

/-- Hypothesis under which a snapshot entry keeps the invariant: a job id
the snapshot reports that is not in the active partition must not be in
the terminal partition either (the source creates a fresh active record
without checking `completed_tasks`). -/
def snapshotIdOK (s : Store) : QTask → Prop
  | .malformed => True
  | .well id _ =>
      alookup id s.tasks_status = none → alookup id s.completed_tasks = none

instance instDecSnapshotIdOK (s : Store) :
    (task : QTask) → Decidable (snapshotIdOK s task)
  | .malformed => inferInstanceAs (Decidable True)
  | .well id _ =>
      inferInstanceAs
        (Decidable (alookup id s.tasks_status = none →
          alookup id s.completed_tasks = none))

/-! ## Concrete fixtures used by the example theorems -/

/-- A text-encoding node with literal text `txt`. -/
def clipNode (txt : String) : Node :=
  { class_type := some "CLIPTextEncode", inputs := some [("text", .s txt)] }

/-- A video-text-encoding node with positive prompt `txt`. -/
def wanTextNode (txt : String) : Node :=
  { class_type := some "WanVideoTextEncode",
    inputs := some [("positive_prompt", .s txt)] }

/-- A graph whose first node is a `WanVideoTextEncode` with prompt `dog`
and whose second node is a `CLIPTextEncode` with text `cat`. -/
def wfDogCat : Workflow := [("1", wanTextNode "dog"), ("2", clipNode "cat")]

def cfg0 : EngineConfig := {}

/-- A network on which every fetch succeeds. -/
def netUp : String → Bool := fun _ => true

/-- A network on which every fetch fails. -/
def netDown : String → Bool := fun _ => false

def fs0 : FS := {}

/-- An active processing record with an already-extracted prompt. -/
def procRec : TaskInfo :=
  { status := "processing", prompt := some (some (.s "cat")) }

def store1 : Store := { tasks_status := [("t1", .parsed procRec)] }

/-- A history record whose outputs carry one video artifact. -/
def histGif : TaskHistory :=
  { outputs := some [("9", { gifs := some [{ filename := some (.s "out.mp4") }] })] }

/-- A history record for a job that has not completed yet. -/
def histProcessing : TaskHistory := { statusObj := some { completed := false } }

/-- A terminal record whose timestamps are far older than 7 days relative
to `now = 10^9`. -/
def oldDone : TaskInfo :=
  { status := "completed", completed_at := some 0, last_updated := some 0 }

def storeOld : Store := { completed_tasks := [("old", .parsed oldDone)] }

/-- An error record untouched for far more than one hour. -/
def errOld : TaskInfo := { status := "error", last_updated := some 0 }

/-- An active partition whose first stored blob is corrupt and whose second
record is an hour-old error record. -/
def storeCorrupt : Store :=
  { tasks_status := [("a", .corrupt), ("b", .parsed errOld)] }

/-- A resolver stub returning a fixed error outcome. -/
def rzErr : String → HistoryResult := fun _ => { status := "error", message := "x" }

/-- A store holding the same job id in both partitions. -/
def storeDup : Store :=
  { tasks_status := [("t1", .parsed procRec)],
    completed_tasks := [("t1", .parsed oldDone)] }

/-! ## Helper lemmas -/

theorem inv_lookup_completed_none {s : Store} {id : String} {v : TaskVal}
    (hinv : partitionInvariant s) (h : alookup id s.tasks_status = some v) :
    alookup id s.completed_tasks = none :=
  (hinv.1 (id, v) (mem_of_alookup_eq_some h)).1

theorem inv_aset_active {s : Store} {id : String} {v : TaskVal}
    (hinv : partitionInvariant s)
    (hC : alookup id s.completed_tasks = none) (hv : activeValOK v) :
    partitionInvariant { s with tasks_status := aset id v s.tasks_status } := by
  refine ⟨?_, hinv.2⟩
  intro p hp
  rcases mem_aset hp with rfl | ⟨hpA, _⟩
  · exact ⟨hC, hv⟩
  · exact hinv.1 p hpA

theorem relocate_eq (s : Store) (id : String) (v : TaskVal) :
    relocate s id v =
      { tasks_status := aerase id s.tasks_status,
        completed_tasks := aset id v s.completed_tasks } := rfl

theorem inv_relocate {s : Store} {id : String} {v : TaskVal}
    (hinv : partitionInvariant s) (hv : terminalValOK v) :
    partitionInvariant (relocate s id v) := by
  rw [relocate_eq]
  constructor
  · intro p hp
    obtain ⟨hpA, hne⟩ := mem_aerase hp
    refine ⟨?_, (hinv.1 p hpA).2⟩
    rw [alookup_aset, if_neg hne]
    exact (hinv.1 p hpA).1
  · intro p hp
    rcases mem_aset hp with rfl | ⟨hpC, _⟩
    · exact hv
    · exact hinv.2 p hpC

theorem inv_delete {s : Store} (id : String) (hinv : partitionInvariant s) :
    partitionInvariant (deleteTaskRoute s id) := by
  constructor
  · intro p hp
    obtain ⟨hpA, hne⟩ := mem_aerase hp
    refine ⟨?_, (hinv.1 p hpA).2⟩
    show alookup p.1 (aerase id s.completed_tasks) = none
    rw [alookup_aerase, if_neg hne]
    exact (hinv.1 p hpA).1
  · intro p hp
    exact hinv.2 p (mem_aerase hp).1

theorem tickExtractFields_status (ti : TaskInfo) (wf : Option Workflow) :
    (tickExtractFields ti wf).status = ti.status := rfl

theorem tickProcessRecord_status (ti : TaskInfo) (wf : Option Workflow)
    (now : Int) : (tickProcessRecord ti wf now).status = "processing" := by
  simp only [tickProcessRecord, tickExtractFields]
  split <;> rfl

theorem tickPendingRecord_status (ti : TaskInfo) (wf : Option Workflow)
    (pos : Nat) (now : Int) :
    (tickPendingRecord ti wf pos now).status = "pending" := by
  simp only [tickPendingRecord, tickExtractFields]
  split <;> rfl

theorem newRunningRecord_status (wf : Option Workflow) (now : Int) :
    (newRunningRecord wf now).status = "processing" := rfl

theorem newPendingRecord_status (wf : Option Workflow) (pos : Nat) (now : Int) :
    (newPendingRecord wf pos now).status = "pending" := rfl

theorem activeValOK_parsed {t : TaskInfo} (hc : t.status ≠ "completed")
    (he : t.status ≠ "error") : activeValOK (.parsed t) :=
  fun h => h.elim hc he

theorem inv_updateRunningTask {s : Store} {task : QTask} {now : Int}
    {s2 : Store} (hinv : partitionInvariant s) (hok : snapshotIdOK s task)
    (h : updateRunningTask s task now = .ok s2) : partitionInvariant s2 := by
  cases task with
  | malformed =>
      simp only [updateRunningTask] at h
      injection h with h
      subst h
      exact hinv
  | well id wf =>
      simp only [updateRunningTask] at h
      split at h
      next => cases h
      next ti heq =>
          injection h with h
          subst h
          refine inv_aset_active hinv (inv_lookup_completed_none hinv heq) ?_
          exact activeValOK_parsed
            (by rw [tickProcessRecord_status]; decide)
            (by rw [tickProcessRecord_status]; decide)
      next heq =>
          injection h with h
          subst h
          refine inv_aset_active hinv (hok heq) ?_
          exact activeValOK_parsed
            (by rw [newRunningRecord_status]; decide)
            (by rw [newRunningRecord_status]; decide)

theorem inv_updatePendingTask {s : Store} {task : QTask} {pos : Nat}
    {now : Int} {s2 : Store} (hinv : partitionInvariant s)
    (hok : snapshotIdOK s task)
    (h : updatePendingTask s task pos now = .ok s2) : partitionInvariant s2 := by
  cases task with
  | malformed =>
      simp only [updatePendingTask] at h
      injection h with h
      subst h
      exact hinv
  | well id wf =>
      simp only [updatePendingTask] at h
      split at h
      next => cases h
      next ti heq =>
          injection h with h
          subst h
          refine inv_aset_active hinv (inv_lookup_completed_none hinv heq) ?_
          exact activeValOK_parsed
            (by rw [tickPendingRecord_status]; decide)
            (by rw [tickPendingRecord_status]; decide)
      next heq =>
          injection h with h
          subst h
          refine inv_aset_active hinv (hok heq) ?_
          exact activeValOK_parsed
            (by rw [newPendingRecord_status]; decide)
            (by rw [newPendingRecord_status]; decide)

theorem inv_historyStep {s : Store} {id : String} {hist : HistoryResult}
    {now : Int} {s2 : Store} (hinv : partitionInvariant s)
    (h : historyStep s id hist now = .ok s2) : partitionInvariant s2 := by
  unfold historyStep at h
  split at h
  next =>
      injection h with h
      subst h
      exact hinv
  next => cases h
  next td heq =>
      split at h
      · injection h with h
        subst h
        exact hinv
      · split at h
        next hterm =>
            injection h with h
            subst h
            exact inv_relocate hinv hterm
        next hterm =>
            injection h with h
            subst h
            exact inv_aset_active hinv (inv_lookup_completed_none hinv heq) hterm

theorem inv_cleanupEntry {resolve : String → HistoryResult} {now : Int}
    {s : Store} {e : String × TaskVal} {s2 : Store}
    (hinv : partitionInvariant s) (h : cleanupEntry resolve now s e = .ok s2) :
    partitionInvariant s2 := by
  unfold cleanupEntry at h
  split at h
  next => cases h
  next td =>
      split at h
      next herr =>
          split at h
          · injection h with h
            subst h
            exact inv_relocate hinv (Or.inr herr)
          · injection h with h
            subst h
            exact hinv
      next =>
          split at h
          next =>
              split at h
              next hterm =>
                  injection h with h
                  subst h
                  exact inv_relocate hinv hterm
              next =>
                  injection h with h
                  subst h
                  exact hinv
          next =>
              injection h with h
              subst h
              exact hinv

theorem inv_cleanupList {resolve : String → HistoryResult} {now : Int} :
    ∀ {l : List (String × TaskVal)} {s : Store}, partitionInvariant s →
      partitionInvariant (cleanupList resolve now s l) := by
  intro l
  induction l with
  | nil => intro s hinv; exact hinv
  | cons e rest ih =>
      intro s hinv
      unfold cleanupList
      cases he : cleanupEntry resolve now s e with
      | ok s2 => exact ih (inv_cleanupEntry hinv he)
      | error _ => exact hinv

theorem inv_submitCreate {s : Store} (id p m : String) (now seed : Int)
    (hinv : partitionInvariant s)
    (hC : alookup id s.completed_tasks = none) :
    partitionInvariant (submitCreate s id p m now seed) := by
  refine inv_aset_active hinv hC (activeValOK_parsed ?_ ?_)
  · intro hh
    exact absurd (show ("pending" : String) = "completed" from hh) (by decide)
  · intro hh
    exact absurd (show ("pending" : String) = "error" from hh) (by decide)

/-! ## Claim C1 -/

/-- C1 (amended): between complete per-record engine operations — snapshot
updates, history-resolver merges and relocations, cleanup-sweep runs,
submission inserts and deletes — and provided a snapshot id absent from
the active partition is not already terminal, the partition invariant
holds: active records are non-terminal and their ids absent from the
terminal partition, terminal records are completed/error, so every known
id is held in exactly one partition.  (As claimed, at every intermediate
store operation, it fails: see the counterexample.) -/
theorem partition_invariant_preserved :
    (∀ s task now s2, partitionInvariant s → snapshotIdOK s task →
        updateRunningTask s task now = .ok s2 → partitionInvariant s2) ∧
    (∀ s task pos now s2, partitionInvariant s → snapshotIdOK s task →
        updatePendingTask s task pos now = .ok s2 → partitionInvariant s2) ∧
    (∀ s id hist now s2, partitionInvariant s →
        historyStep s id hist now = .ok s2 → partitionInvariant s2) ∧
    (∀ resolve s now, partitionInvariant s →
        partitionInvariant (cleanupOldTasks resolve s now)) ∧
    (∀ s id p m now seed, partitionInvariant s →
        alookup id s.completed_tasks = none →
        partitionInvariant (submitCreate s id p m now seed)) ∧
    (∀ s id, partitionInvariant s → partitionInvariant (deleteTaskRoute s id)) := by
  refine ⟨?_, ?_, ?_, ?_, ?_, ?_⟩
  · intro s task now s2 h1 h2 h3
    exact inv_updateRunningTask h1 h2 h3
  · intro s task pos now s2 h1 h2 h3
    exact inv_updatePendingTask h1 h2 h3
  · intro s id hist now s2 h1 h2
    exact inv_historyStep h1 h2
  · intro resolve s now h1
    exact inv_cleanupList h1
  · intro s id p m now seed h1 h2
    exact inv_submitCreate id p m now seed h1 h2
  · intro s id h1
    exact inv_delete id h1

/-- Witness for C1: the preservation facts applied at concrete stores. -/
theorem partition_invariant_preserved_witness :
    partitionInvariant (submitCreate ⟨[], []⟩ "t1" "p" "m" 0 0) ∧
    partitionInvariant (cleanupOldTasks rzErr store1 0) ∧
    partitionInvariant (deleteTaskRoute store1 "t1") :=
  ⟨partition_invariant_preserved.2.2.2.2.1 ⟨[], []⟩ "t1" "p" "m" 0 0
      (by decide) (by decide),
   partition_invariant_preserved.2.2.2.1 rzErr store1 0 (by decide),
   partition_invariant_preserved.2.2.2.2.2 store1 "t1" (by decide)⟩

/-- Counterexample for C1 as stated: a relocation is two store
operations; after the completed write into the terminal partition and
before the delete from the active partition, the job id is held in both
partitions at once and the invariant fails, even though it held before
and holds again after the full relocation. -/
theorem partition_invariant_midmove_cex :
    partitionInvariant store1 ∧
    (alookup "t1" (runOps store1 (List.take 1 (relocateOps "t1"
        (.parsed { procRec with status := "completed" })))).tasks_status).isSome = true ∧
    (alookup "t1" (runOps store1 (List.take 1 (relocateOps "t1"
        (.parsed { procRec with status := "completed" })))).completed_tasks).isSome = true ∧
    ¬partitionInvariant (runOps store1 (List.take 1 (relocateOps "t1"
        (.parsed { procRec with status := "completed" })))) ∧
    partitionInvariant (runOps store1 (relocateOps "t1"
        (.parsed { procRec with status := "completed" }))) := by decide

/-! ## Claim C2 -/

theorem cleanupEntry_completed_mono {resolve : String → HistoryResult}
    {now : Int} {s : Store} {e : String × TaskVal} {s2 : Store}
    (h : cleanupEntry resolve now s e = .ok s2) {id : String} {v : TaskVal}
    (hv : alookup id s.completed_tasks = some v) :
    ∃ v2, alookup id s2.completed_tasks = some v2 := by
  unfold cleanupEntry at h
  split at h
  next => cases h
  next td =>
      split at h
      next =>
          split at h
          · injection h with h
            subst h
            rw [relocate_eq]
            by_cases hid : id = e.1
            · subst hid
              exact ⟨_, alookup_aset_self _ _ _⟩
            · exact ⟨v, by rw [alookup_aset, if_neg hid]; exact hv⟩
          · injection h with h
            subst h
            exact ⟨v, hv⟩
      next =>
          split at h
          next =>
              split at h
              next =>
                  injection h with h
                  subst h
                  rw [relocate_eq]
                  by_cases hid : id = e.1
                  · subst hid
                    exact ⟨_, alookup_aset_self _ _ _⟩
                  · exact ⟨v, by rw [alookup_aset, if_neg hid]; exact hv⟩
              next =>
                  injection h with h
                  subst h
                  exact ⟨v, hv⟩
          next =>
              injection h with h
              subst h
              exact ⟨v, hv⟩

theorem cleanupEntry_active_mono {resolve : String → HistoryResult}
    {now : Int} {s : Store} {e : String × TaskVal} {s2 : Store}
    (h : cleanupEntry resolve now s e = .ok s2) {id : String} {v : TaskVal}
    (hv : alookup id s.tasks_status = some v) :
    alookup id s2.tasks_status = some v ∨
      ∃ v2, alookup id s2.completed_tasks = some v2 := by
  unfold cleanupEntry at h
  split at h
  next => cases h
  next td =>
      split at h
      next =>
          split at h
          · injection h with h
            subst h
            rw [relocate_eq]
            by_cases hid : id = e.1
            · subst hid
              exact Or.inr ⟨_, alookup_aset_self _ _ _⟩
            · exact Or.inl (by rw [alookup_aerase, if_neg hid]; exact hv)
          · injection h with h
            subst h
            exact Or.inl hv
      next =>
          split at h
          next =>
              split at h
              next =>
                  injection h with h
                  subst h
                  rw [relocate_eq]
                  by_cases hid : id = e.1
                  · subst hid
                    exact Or.inr ⟨_, alookup_aset_self _ _ _⟩
                  · exact Or.inl (by rw [alookup_aerase, if_neg hid]; exact hv)
              next =>
                  injection h with h
                  subst h
                  exact Or.inl hv
          next =>
              injection h with h
              subst h
              exact Or.inl hv

theorem cleanupList_completed_mono {resolve : String → HistoryResult}
    {now : Int} :
    ∀ {l : List (String × TaskVal)} {s : Store} {id : String} {v : TaskVal},
      alookup id s.completed_tasks = some v →
      ∃ v2, alookup id (cleanupList resolve now s l).completed_tasks = some v2 := by
  intro l
  induction l with
  | nil => intro s id v hv; exact ⟨v, hv⟩
  | cons e rest ih =>
      intro s id v hv
      unfold cleanupList
      cases he : cleanupEntry resolve now s e with
      | ok s2 =>
          obtain ⟨v2, hv2⟩ := cleanupEntry_completed_mono he hv
          exact ih hv2
      | error _ => exact ⟨v, hv⟩

theorem cleanupList_active_mono {resolve : String → HistoryResult}
    {now : Int} :
    ∀ {l : List (String × TaskVal)} {s : Store} {id : String} {v : TaskVal},
      alookup id s.tasks_status = some v →
      alookup id (cleanupList resolve now s l).tasks_status = some v ∨
        ∃ v2, alookup id (cleanupList resolve now s l).completed_tasks = some v2 := by
  intro l
  induction l with
  | nil => intro s id v hv; exact Or.inl hv
  | cons e rest ih =>
      intro s id v hv
      unfold cleanupList
      cases he : cleanupEntry resolve now s e with
      | ok s2 =>
          rcases cleanupEntry_active_mono he hv with h2 | ⟨v2, hv2⟩
          · exact ih h2
          · exact Or.inr (cleanupList_completed_mono hv2)
      | error _ => exact Or.inl hv

/-- C2 (amended): the garbage collector performs no retention deletion at
all — a terminal record of any age is still present after a sweep — and
it never deletes an active record outright: an active id that leaves the
active partition during a sweep reappears in the terminal partition
(relocation), never vanishing. -/
theorem gc_no_retention_deletion (resolve : String → HistoryResult)
    (s : Store) (now : Int) :
    (∀ id v, alookup id s.completed_tasks = some v →
        ∃ v2, alookup id (cleanupOldTasks resolve s now).completed_tasks = some v2) ∧
    (∀ id v, alookup id s.tasks_status = some v →
        alookup id (cleanupOldTasks resolve s now).tasks_status = some v ∨
        ∃ v2, alookup id (cleanupOldTasks resolve s now).completed_tasks = some v2) :=
  ⟨fun _ _ hv => cleanupList_completed_mono hv,
   fun _ _ hv => cleanupList_active_mono hv⟩

/-- Witness for C2: a 7-day-old terminal record is still present after a
sweep, and an active record survives or is relocated. -/
theorem gc_no_retention_deletion_witness :
    (∃ v2, alookup "old"
        (cleanupOldTasks rzErr storeOld 1000000000).completed_tasks = some v2) ∧
    (alookup "t1" (cleanupOldTasks rzErr store1 0).tasks_status =
        some (.parsed procRec) ∨
      ∃ v2, alookup "t1" (cleanupOldTasks rzErr store1 0).completed_tasks = some v2) :=
  ⟨(gc_no_retention_deletion rzErr storeOld 1000000000).1 "old"
      (.parsed oldDone) (by decide),
   (gc_no_retention_deletion rzErr store1 0).2 "t1" (.parsed procRec) (by decide)⟩

/-- Counterexample for C2 as stated: a terminal record whose
`completed_at`/`last_updated` lie far more than 7 days before `now`
survives the sweep untouched — the claimed deletion does not happen. -/
theorem gc_retention_cex :
    ((1000000000 : Int) - 0 > 7 * 24 * 3600) ∧
    alookup "old" storeOld.completed_tasks = some (.parsed oldDone) ∧
    oldDone.completed_at = some 0 ∧ oldDone.last_updated = some 0 ∧
    cleanupOldTasks rzErr storeOld 1000000000 = storeOld := by decide

/-! ## Claim C7 -/

theorem cleanupEntry_parsed_ok (resolve : String → HistoryResult) (now : Int)
    (s : Store) (id : String) (t : TaskInfo) :
    ∃ s2, cleanupEntry resolve now s (id, .parsed t) = .ok s2 := by
  unfold cleanupEntry
  dsimp only
  repeat' split
  all_goals exact ⟨_, rfl⟩

/-- C7 (amended): a single raising record does not crash the sweep — the
exception is caught at sweep level — but the sweep does NOT continue with
the remaining records: every record after the first corrupt one is left
unprocessed, and the updates made before it are kept. -/
theorem cleanup_abort_on_failure (resolve : String → HistoryResult)
    (now : Int) :
    ∀ (pre : List (String × TaskVal)) (s : Store) (id : String)
      (post : List (String × TaskVal)),
      (∀ e ∈ pre, e.2 ≠ TaskVal.corrupt) →
      cleanupList resolve now s (pre ++ (id, TaskVal.corrupt) :: post) =
        cleanupList resolve now s pre := by
  intro pre
  induction pre with
  | nil =>
      intro s id post _
      simp only [List.nil_append]
      unfold cleanupList cleanupEntry
      rfl
  | cons e rest ih =>
      intro s id post hpre
      have he2 : e.2 ≠ TaskVal.corrupt := hpre e (List.mem_cons_self ..)
      simp only [List.cons_append]
      unfold cleanupList
      cases ht : e.2 with
      | corrupt => exact absurd ht he2
      | parsed t =>
          obtain ⟨s2, hs2⟩ := cleanupEntry_parsed_ok resolve now s e.1 t
          have he : cleanupEntry resolve now s e = .ok s2 := by
            rw [show e = (e.1, TaskVal.parsed t) from Prod.ext rfl ht]
            exact hs2
          rw [he]
          exact ih s2 id post (fun x hx => hpre x (List.mem_cons_of_mem _ hx))

/-- Witness for C7: with the well-formed record first, the sweep processes
it (relocating the hour-old error record) and stops at the corrupt blob. -/
theorem cleanup_abort_on_failure_witness :
    cleanupList rzErr 100000 ⟨[("b", .parsed errOld), ("a", .corrupt)], []⟩
        ([("b", .parsed errOld)] ++ ("a", TaskVal.corrupt) :: []) =
      cleanupList rzErr 100000 ⟨[("b", .parsed errOld), ("a", .corrupt)], []⟩
        [("b", .parsed errOld)] :=
  cleanup_abort_on_failure rzErr 100000 [("b", .parsed errOld)]
    ⟨[("b", .parsed errOld), ("a", .corrupt)], []⟩ "a" [] (by decide)

/-- Counterexample for C7 as stated: the first stored blob fails to parse,
and the hour-old error record behind it — which a continuing sweep would
relocate — is left in place: the sweep does not continue past the
failure. -/
theorem cleanup_abort_cex :
    errOld.status = "error" ∧ ((100000 : Int) - 0 > 3600) ∧
    alookup "b" storeCorrupt.tasks_status = some (.parsed errOld) ∧
    cleanupOldTasks rzErr storeCorrupt 100000 = storeCorrupt ∧
    alookup "b" (cleanupOldTasks rzErr storeCorrupt 100000).completed_tasks =
      none := by decide

/-! ## Claim C5 -/

/-- C5: confirmed.  For a path not yet present locally and a reachable
remote, the first `_download_video` call performs exactly one network
download and creates the file, the second call returns immediately with
no download, and in general any call whose computed local path already
exists returns immediately without contacting the remote. -/
theorem ensure_local_idempotent (net : String → Bool) (fs : FS)
    (url p : String) (hnew : p ∉ fs.files) (hnet : net url = true) :
    downloadVideo net fs url p = .ok (⟨p :: fs.files⟩, 1) ∧
    downloadVideo net ⟨p :: fs.files⟩ url p = .ok (⟨p :: fs.files⟩, 0) ∧
    (∀ fs2 : FS, p ∈ fs2.files → downloadVideo net fs2 url p = .ok (fs2, 0)) := by
  refine ⟨?_, ?_, ?_⟩
  · simp [downloadVideo, hnew, hnet]
  · simp [downloadVideo]
  · intro fs2 h2
    simp [downloadVideo, h2]

/-- Witness for C5 at a concrete path and network. -/
theorem ensure_local_idempotent_witness :
    downloadVideo netUp ⟨[]⟩ "u" "f" = .ok (⟨["f"]⟩, 1) ∧
    downloadVideo netUp ⟨["f"]⟩ "u" "f" = .ok (⟨["f"]⟩, 0) ∧
    (∀ fs2 : FS, "f" ∈ fs2.files → downloadVideo netUp fs2 "u" "f" = .ok (fs2, 0)) :=
  ensure_local_idempotent netUp ⟨[]⟩ "u" "f" (by decide) rfl

/-! ## Claim C9 -/

/-- C9: confirmed.  `processing_started` is written only when the key is
absent (first observation wins): a snapshot update preserves an existing
value and only initializes a missing one; the pending branch never
touches it; a history merge never carries the key, so
`task_data.update(history_result)` preserves it; and across two snapshot
ticks at non-decreasing times the derived `processing_time` is
non-decreasing. -/
theorem processing_started_monotone :
    (∀ ti wf now v, ti.processing_started = some v →
        (tickProcessRecord ti wf now).processing_started = some v) ∧
    (∀ ti wf now, ti.processing_started = none →
        (tickProcessRecord ti wf now).processing_started = some now) ∧
    (∀ ti wf pos now,
        (tickPendingRecord ti wf pos now).processing_started =
          ti.processing_started) ∧
    (∀ ti h, (applyUpdate ti h).processing_started = ti.processing_started) ∧
    (∀ ti h now,
        (mergeRecord ti h now).processing_started = ti.processing_started) ∧
    (∀ ti wf1 wf2 t1 t2 a b, t1 ≤ t2 →
        (tickProcessRecord ti wf1 t1).processing_time = some a →
        (tickProcessRecord (tickProcessRecord ti wf1 t1) wf2 t2).processing_time =
          some b →
        a ≤ b) := by
  refine ⟨?_, ?_, ?_, ?_, ?_, ?_⟩
  · intro ti wf now v h
    simp [tickProcessRecord, tickExtractFields, h]
  · intro ti wf now h
    simp [tickProcessRecord, tickExtractFields, h]
  · intro ti wf pos now
    simp only [tickPendingRecord, tickExtractFields]
    split <;> rfl
  · intro ti h
    rfl
  · intro ti h now
    rfl
  · intro ti wf1 wf2 t1 t2 a b h12 ha hb
    cases hps : ti.processing_started with
    | none =>
        simp [tickProcessRecord, tickExtractFields, hps] at ha hb
        omega
    | some p =>
        simp [tickProcessRecord, tickExtractFields, hps] at ha hb
        omega

/-- Witness for C9: the preservation and monotonicity facts at concrete
records and times. -/
theorem processing_started_monotone_witness :
    (tickProcessRecord { status := "processing", processing_started := some 5 }
        none 9).processing_started = some 5 ∧
    (tickProcessRecord { status := "pending" } none 9).processing_started =
      some 9 ∧
    (3 : Int) ≤ 5 :=
  ⟨processing_started_monotone.1 _ none 9 5 rfl,
   processing_started_monotone.2.1 _ none 9 rfl,
   processing_started_monotone.2.2.2.2.2
     { status := "x", processing_started := some 2 } none none 5 7 3 5
     (by decide) (by decide) (by decide)⟩

/-! ## Claim C4 -/

/-- C4 (amended): the queue-snapshot updates never overwrite a present
`prompt`/`model` key (extraction runs only when the key is absent), and
the cleanup sweep relocates an error record unchanged; but the History
Resolver merge (`task_data.update(history_result)`) preserves the fields
only when the outcome carries no `prompt`/`model` key (the
artifact-bearing outcomes) — outcomes that do carry the keys overwrite
them, possibly with `null` (see the counterexample). -/
theorem prompt_model_preservation_limits :
    (∀ ti wf now v, ti.prompt = some v →
        (tickProcessRecord ti wf now).prompt = some v) ∧
    (∀ ti wf now v, ti.model = some v →
        (tickProcessRecord ti wf now).model = some v) ∧
    (∀ ti wf pos now v, ti.prompt = some v →
        (tickPendingRecord ti wf pos now).prompt = some v) ∧
    (∀ ti wf pos now v, ti.model = some v →
        (tickPendingRecord ti wf pos now).model = some v) ∧
    (∀ ti h now, h.prompt = none → (mergeRecord ti h now).prompt = ti.prompt) ∧
    (∀ ti h now, h.model = none → (mergeRecord ti h now).model = ti.model) ∧
    (∀ resolve now s id td s2, td.status = "error" →
        cleanupEntry resolve now s (id, .parsed td) = .ok s2 →
        s2 = s ∨ alookup id s2.completed_tasks = some (.parsed td)) := by
  refine ⟨?_, ?_, ?_, ?_, ?_, ?_, ?_⟩
  · intro ti wf now v h
    simp only [tickProcessRecord, tickExtractFields]
    split <;> simp [h]
  · intro ti wf now v h
    simp only [tickProcessRecord, tickExtractFields]
    split <;> simp [h]
  · intro ti wf pos now v h
    simp only [tickPendingRecord, tickExtractFields]
    split <;> simp [h]
  · intro ti wf pos now v h
    simp only [tickPendingRecord, tickExtractFields]
    split <;> simp [h]
  · intro ti h now hh
    simp [mergeRecord, applyUpdate, hh]
  · intro ti h now hh
    simp [mergeRecord, applyUpdate, hh]
  · intro resolve now s id td s2 herr h
    unfold cleanupEntry at h
    dsimp only at h
    rw [if_pos herr] at h
    split at h
    · injection h with h
      subst h
      right
      rw [relocate_eq]
      exact alookup_aset_self _ _ _
    · injection h with h
      subst h
      left
      rfl

/-- Witness for C4: the preservation facts at concrete records. -/
theorem prompt_model_preservation_limits_witness :
    (tickProcessRecord procRec (some wfDogCat) 9).prompt =
      some (some (.s "cat")) ∧
    (mergeRecord procRec { status := "completed", message := "m" } 9).prompt =
      procRec.prompt :=
  ⟨prompt_model_preservation_limits.1 procRec (some wfDogCat) 9
      (some (.s "cat")) rfl,
   prompt_model_preservation_limits.2.2.2.2.1 procRec
      { status := "completed", message := "m" } 9 rfl⟩

/-- Counterexample for C4 as stated: a record with successfully extracted
prompt `cat` that falls out of the snapshot while the history record
shows it still processing gets its prompt overwritten with `null` by the
History Resolver merge, and the overwritten record is written back to the
active partition. -/
theorem prompt_overwrite_cex :
    procRec.prompt = some (some (.s "cat")) ∧
    (checkTaskHistory cfg0 netUp fs0 "t1"
        (.ok [("t1", histProcessing)])).prompt = some none ∧
    (applyUpdate procRec (checkTaskHistory cfg0 netUp fs0 "t1"
        (.ok [("t1", histProcessing)]))).prompt = some none ∧
    historyStep store1 "t1"
        (checkTaskHistory cfg0 netUp fs0 "t1" (.ok [("t1", histProcessing)]))
        100 =
      .ok ⟨[("t1", .parsed
        { status := "processing", message := "任务仍在处理中",
          prompt := some none, model := some none,
          last_updated := some 100 })], []⟩ :=
  ⟨rfl, rfl, rfl, rfl⟩

/-! ## Claim C3 -/

theorem processOutputs_gif_netfail (cfg : EngineConfig) (net : String → Bool)
    (fs : FS) (nid f : String) (hf : f ≠ "")
    (hcache : ospJoin cfg.OUTPUT_DIR f ∉ fs.files)
    (hnet : net (cfg.COMFYUI_URL ++ "/view?filename=" ++ f) = false) :
    processOutputs cfg net fs
        [(nid, { gifs := some [{ filename := some (.s f) }] })] = .error () := by
  unfold processOutputs gifsStep downloadVideo
  simp [JVal.truthy, hf, hcache, hnet]

theorem checkTaskHistory_gif_netfail (cfg : EngineConfig)
    (net : String → Bool) (fs : FS) (id nid f : String) (hf : f ≠ "")
    (hcache : ospJoin cfg.OUTPUT_DIR f ∉ fs.files)
    (hnet : net (cfg.COMFYUI_URL ++ "/view?filename=" ++ f) = false) :
    checkTaskHistory cfg net fs id
        (.ok [(id,
          { outputs :=
              some [(nid, { gifs := some [{ filename := some (.s f) }] })] })]) =
      { status := "error", message := "检查任务历史记录失败" } := by
  unfold checkTaskHistory checkTaskHistoryBody historyExtractModel
  simp only [alookup, if_pos,
    processOutputs_gif_netfail cfg net fs nid f hf hcache hnet]
  rfl

/-- C3 (amended): when the artifact download raises during history
resolution, the resolver's catch-all converts the failure into an
`error` outcome with the generic message, and the Reconciliation Loop
then relocates the record to the terminal partition — the job does NOT
stay non-terminal and is not retried. -/
theorem download_failure_marks_error (cfg : EngineConfig)
    (net : String → Bool) (fs : FS) (id nid f : String) (s : Store)
    (ti : TaskInfo) (now : Int) (hf : f ≠ "")
    (hcache : ospJoin cfg.OUTPUT_DIR f ∉ fs.files)
    (hnet : net (cfg.COMFYUI_URL ++ "/view?filename=" ++ f) = false)
    (hlk : alookup id s.tasks_status = some (.parsed ti))
    (hc : ti.status ≠ "completed") (he : ti.status ≠ "error") :
    ∃ td, historyStep s id
        (checkTaskHistory cfg net fs id
          (.ok [(id,
            { outputs :=
                some [(nid, { gifs := some [{ filename := some (.s f) }] })] })]))
        now = .ok (relocate s id (.parsed td)) ∧
      td.status = "error" ∧ td.message = "检查任务历史记录失败" ∧
      alookup id (relocate s id (.parsed td)).tasks_status = none ∧
      alookup id (relocate s id (.parsed td)).completed_tasks =
        some (.parsed td) := by
  rw [checkTaskHistory_gif_netfail cfg net fs id nid f hf hcache hnet]
  refine ⟨{ mergeRecord ti
      { status := "error", message := "检查任务历史记录失败" } now with
      completed_at := some now }, ?_, rfl, rfl, ?_, ?_⟩
  · simp only [historyStep, hlk]
    rw [if_neg (fun hh : _ ∨ _ => hh.elim hc he)]
    split
    next => rfl
    next hcon => exact absurd (Or.inr rfl) hcon
  · rw [relocate_eq]
    show alookup id (aerase id s.tasks_status) = none
    rw [alookup_aerase, if_pos rfl]
  · rw [relocate_eq]
    exact alookup_aset_self _ _ _

/-- Witness for C3 at a concrete store, history body and failing network. -/
theorem download_failure_marks_error_witness :
    ∃ td, historyStep store1 "t1"
        (checkTaskHistory cfg0 netDown fs0 "t1"
          (.ok [("t1",
            { outputs :=
                some [("9", { gifs := some [{ filename := some (.s "out.mp4") }] })] })]))
        100 = .ok (relocate store1 "t1" (.parsed td)) ∧
      td.status = "error" ∧ td.message = "检查任务历史记录失败" ∧
      alookup "t1" (relocate store1 "t1" (.parsed td)).tasks_status = none ∧
      alookup "t1" (relocate store1 "t1" (.parsed td)).completed_tasks =
        some (.parsed td) :=
  download_failure_marks_error cfg0 netDown fs0 "t1" "9" "out.mp4" store1
    procRec 100 (by decide) (by decide) rfl (by decide) (by decide) (by decide)

/-- Counterexample for C3 as stated: with the download failing, the
resolver returns an `error` outcome and the affected record ends up in
the terminal partition — it does not stay non-terminal. -/
theorem download_failure_cex :
    checkTaskHistory cfg0 netDown fs0 "t1" (.ok [("t1", histGif)]) =
      { status := "error", message := "检查任务历史记录失败" } ∧
    historyStep store1 "t1"
        (checkTaskHistory cfg0 netDown fs0 "t1" (.ok [("t1", histGif)])) 100 =
      .ok ⟨[], [("t1", .parsed
        { status := "error", message := "检查任务历史记录失败",
          prompt := some (some (.s "cat")),
          last_updated := some 100, completed_at := some 100 })]⟩ :=
  ⟨rfl, rfl⟩

/-! ## Claim C6 -/

theorem gifsStep_status {cfg : EngineConfig} {net : String → Bool} {fs : FS}
    {o : OutputEntry} {r : HistoryResult}
    (h : gifsStep cfg net fs o = .ok (some r)) : r.status = "completed" := by
  unfold gifsStep at h
  repeat' split at h
  all_goals try cases h
  all_goals rfl

theorem imagesStep_status {cfg : EngineConfig} {net : String → Bool} {fs : FS}
    {o : OutputEntry} {r : HistoryResult}
    (h : imagesStep cfg net fs o = .ok (some r)) : r.status = "completed" := by
  unfold imagesStep at h
  repeat' split at h
  all_goals try cases h
  all_goals rfl

theorem processOutputs_status {cfg : EngineConfig} {net : String → Bool}
    {fs : FS} :
    ∀ {l : List (String × OutputEntry)} {r : HistoryResult},
      processOutputs cfg net fs l = .ok (some r) → r.status = "completed" := by
  intro l
  induction l with
  | nil =>
      intro r h
      injection h with h
      cases h
  | cons e rest ih =>
      intro r h
      unfold processOutputs at h
      split at h
      next => cases h
      next hg =>
          injection h with h
          injection h with h
          subst h
          exact gifsStep_status hg
      next =>
          split at h
          next => cases h
          next hi =>
              injection h with h
              injection h with h
              subst h
              exact imagesStep_status hi
          next => exact ih h

theorem checkTaskHistoryBody_status {cfg : EngineConfig} {net : String → Bool}
    {fs : FS} {id : String} {resp : HistResponse} {r : HistoryResult}
    (h : checkTaskHistoryBody cfg net fs id resp = .ok r) :
    r.status = "completed" ∨ r.status = "error" ∨ r.status = "processing" ∨
      r.status = "unknown" := by
  unfold checkTaskHistoryBody at h
  split at h
  next => cases h
  next =>
      injection h with h
      subst h
      exact Or.inr (Or.inl rfl)
  next =>
      injection h with h
      subst h
      exact Or.inr (Or.inl rfl)
  next body =>
      split at h
      next => cases h
      next th hth =>
          split at h
          next => cases h
          next model hm =>
              split at h
              next => cases h
              next r2 hr2 =>
                  injection h with h
                  subst h
                  split at hr2
                  next outputs ho =>
                      exact Or.inl (processOutputs_status hr2)
                  next => cases hr2
              next =>
                  split at h
                  next =>
                      injection h with h
                      subst h
                      exact Or.inl rfl
                  next =>
                      split at h
                      next st hst =>
                          split at h
                          next =>
                              split at h
                              next =>
                                  injection h with h
                                  subst h
                                  exact Or.inr (Or.inl rfl)
                              next =>
                                  injection h with h
                                  subst h
                                  exact Or.inl rfl
                          next =>
                              injection h with h
                              subst h
                              exact Or.inr (Or.inr (Or.inl rfl))
                      next =>
                          injection h with h
                          subst h
                          exact Or.inr (Or.inr (Or.inr rfl))

/-- C6 (amended): the resolver never raises past its boundary — for every
response (parsed bodies, 404, other HTTP codes, raised fetch/parse
errors) it returns an outcome whose status is one of
completed/error/processing/unknown; on HTTP 404 the outcome is the error
outcome with the source's message `在历史记录中未找到任务` (the spec's
"not found in history", which is an English gloss, not the literal
message); and the reconciliation step then relocates the record to the
terminal partition carrying exactly that message. -/
theorem resolver_total_and_not_found :
    (∀ (cfg : EngineConfig) (net : String → Bool) (fs : FS) (id : String)
        (resp : HistResponse),
        (checkTaskHistory cfg net fs id resp).status = "completed" ∨
        (checkTaskHistory cfg net fs id resp).status = "error" ∨
        (checkTaskHistory cfg net fs id resp).status = "processing" ∨
        (checkTaskHistory cfg net fs id resp).status = "unknown") ∧
    (∀ (cfg : EngineConfig) (net : String → Bool) (fs : FS) (id : String),
        checkTaskHistory cfg net fs id .notFound =
          { status := "error", message := "在历史记录中未找到任务" }) ∧
    (∀ (cfg : EngineConfig) (net : String → Bool) (fs : FS) (s : Store)
        (id : String) (now : Int) (ti : TaskInfo),
        alookup id s.tasks_status = some (.parsed ti) →
        ti.status ≠ "completed" → ti.status ≠ "error" →
        ∃ td, historyStep s id (checkTaskHistory cfg net fs id .notFound) now =
            .ok (relocate s id (.parsed td)) ∧
          td.status = "error" ∧ td.message = "在历史记录中未找到任务" ∧
          alookup id (relocate s id (.parsed td)).tasks_status = none ∧
          alookup id (relocate s id (.parsed td)).completed_tasks =
            some (.parsed td)) := by
  refine ⟨?_, ?_, ?_⟩
  · intro cfg net fs id resp
    unfold checkTaskHistory
    split
    next r hr => exact checkTaskHistoryBody_status hr
    next => exact Or.inr (Or.inl rfl)
  · intro cfg net fs id
    rfl
  · intro cfg net fs s id now ti hlk hc he
    refine ⟨{ mergeRecord ti
        { status := "error", message := "在历史记录中未找到任务" } now with
        completed_at := some now }, ?_, rfl, rfl, ?_, ?_⟩
    · simp only [historyStep, hlk]
      rw [if_neg (fun hh : _ ∨ _ => hh.elim hc he)]
      split
      next => rfl
      next hcon => exact absurd (Or.inr rfl) hcon
    · rw [relocate_eq]
      show alookup id (aerase id s.tasks_status) = none
      rw [alookup_aerase, if_pos rfl]
    · rw [relocate_eq]
      exact alookup_aset_self _ _ _

/-- Witness for C6 at a concrete store and job id. -/
theorem resolver_total_and_not_found_witness :
    ((checkTaskHistory cfg0 netUp fs0 "t1" (.ok [("t1", histGif)])).status =
        "completed" ∨
      (checkTaskHistory cfg0 netUp fs0 "t1" (.ok [("t1", histGif)])).status =
        "error" ∨
      (checkTaskHistory cfg0 netUp fs0 "t1" (.ok [("t1", histGif)])).status =
        "processing" ∨
      (checkTaskHistory cfg0 netUp fs0 "t1" (.ok [("t1", histGif)])).status =
        "unknown") ∧
    checkTaskHistory cfg0 netUp fs0 "t1" .notFound =
      { status := "error", message := "在历史记录中未找到任务" } ∧
    ∃ td, historyStep store1 "t1"
        (checkTaskHistory cfg0 netUp fs0 "t1" .notFound) 100 =
        .ok (relocate store1 "t1" (.parsed td)) ∧
      td.status = "error" ∧ td.message = "在历史记录中未找到任务" ∧
      alookup "t1" (relocate store1 "t1" (.parsed td)).tasks_status = none ∧
      alookup "t1" (relocate store1 "t1" (.parsed td)).completed_tasks =
        some (.parsed td) :=
  ⟨resolver_total_and_not_found.1 cfg0 netUp fs0 "t1" (.ok [("t1", histGif)]),
   resolver_total_and_not_found.2.1 cfg0 netUp fs0 "t1",
   resolver_total_and_not_found.2.2 cfg0 netUp fs0 store1 "t1" 100 procRec
     (by decide) (by decide) (by decide)⟩

/-- Counterexample for C6 as stated: the 404 outcome's message is the
Chinese literal from the source, not the string `not found in history`
the claim quotes. -/
theorem not_found_message_cex :
    (checkTaskHistory cfg0 netUp fs0 "t1" .notFound).status = "error" ∧
    (checkTaskHistory cfg0 netUp fs0 "t1" .notFound).message =
      "在历史记录中未找到任务" ∧
    (checkTaskHistory cfg0 netUp fs0 "t1" .notFound).message ≠
      "not found in history" := by decide

/-! ## Claim C8 -/

theorem extractPromptGo_append (wf : Workflow) :
    ∀ (pre rest : List (String × Node)),
      (∀ p ∈ pre, matchPromptNode wf p.2 = none) →
      extractPromptGo wf (pre ++ rest) = extractPromptGo wf rest := by
  intro pre
  induction pre with
  | nil => intro rest _; rfl
  | cons p pre ih =>
      intro rest hpre
      obtain ⟨a, b⟩ := p
      have hp : matchPromptNode wf b = none :=
        hpre (a, b) (List.mem_cons_self ..)
      simp only [List.cons_append, extractPromptGo, hp]
      exact ih rest (fun q hq => hpre q (List.mem_cons_of_mem _ hq))

/-- C8 (amended): the update-path extractor iterates the graph's nodes in
order, trying the pattern ladder per node, and stops at the first node a
pattern matches (node-major, not pattern-major); hence a graph in which
the `CLIPTextEncode` node with `text="cat"` comes before any other
matching node — in particular a single-node graph — yields
`prompt="cat"`, for the update-path extractor and for the create-path
extractor alike.  (A graph where another pattern matches an earlier node
yields that node's value instead: see the counterexample.) -/
theorem extract_prompt_first_match :
    (∀ (pre rest : List (String × Node)) (id txt : String),
        (∀ p ∈ pre,
          matchPromptNode (pre ++ (id, clipNode txt) :: rest) p.2 = none) →
        extractPromptUpdate (pre ++ (id, clipNode txt) :: rest) =
          some (.s txt)) ∧
    (∀ id txt, extractPromptUpdate [(id, clipNode txt)] = some (.s txt)) ∧
    (∀ id txt, (extractPromptModelNew [(id, clipNode txt)]).1 =
        some (.s txt)) := by
  have hclip : ∀ (wf : Workflow) (txt : String),
      matchPromptNode wf (clipNode txt) = some (.s txt) := fun wf txt => rfl
  refine ⟨?_, ?_, ?_⟩
  · intro pre rest id txt hpre
    unfold extractPromptUpdate
    rw [extractPromptGo_append _ pre _ hpre]
    simp only [extractPromptGo, hclip]
  · intro id txt
    rfl
  · intro id txt
    rfl

/-- Witness for C8: Scenario A at `txt = "cat"`, with an empty prefix. -/
theorem extract_prompt_first_match_witness :
    extractPromptUpdate ([] ++ ("2", clipNode "cat") :: []) =
      some (.s "cat") :=
  extract_prompt_first_match.1 [] [] "2" "cat" (by simp)

/-- Counterexample for C8 as stated: `wfDogCat` contains a
`CLIPTextEncode` node whose inputs contain `text="cat"`, yet the
update-path extractor returns `dog`, because the earlier
`WanVideoTextEncode` node matches first (node-major iteration). -/
theorem extract_prompt_order_cex :
    ("2", clipNode "cat") ∈ wfDogCat ∧
    (clipNode "cat").class_type = some "CLIPTextEncode" ∧
    (clipNode "cat").input "text" = some (.s "cat") ∧
    extractPromptUpdate wfDogCat = some (.s "dog") ∧
    some (JVal.s "dog") ≠ some (JVal.s "cat") := by decide

/-! ## Claim C10 -/

theorem alookup_foldl_mergeStep_not_mem :
    ∀ (l : List (String × TaskVal)) (acc : List (String × TaskInfo))
      (k : String), k ∉ l.map Prod.fst →
      alookup k (l.foldl mergeStep acc) = alookup k acc := by
  intro l
  induction l with
  | nil => intro acc k _; rfl
  | cons p rest ih =>
      intro acc k hk
      simp only [List.map_cons, List.mem_cons, not_or] at hk
      obtain ⟨hk1, hk2⟩ := hk
      simp only [List.foldl_cons]
      rw [ih _ k hk2]
      unfold mergeStep
      cases hp : p.2 with
      | parsed t => rw [alookup_aset, if_neg hk1]
      | corrupt => rfl

theorem alookup_foldl_mergeStep :
    ∀ {l : List (String × TaskVal)} {acc : List (String × TaskInfo)}
      {k : String} {t : TaskInfo},
      (l.map Prod.fst).Nodup → alookup k l = some (.parsed t) →
      alookup k (l.foldl mergeStep acc) = some t := by
  intro l
  induction l with
  | nil =>
      intro acc k t _ h
      simp [alookup] at h
  | cons p rest ih =>
      intro acc k t hnd h
      simp only [List.map_cons, List.nodup_cons] at hnd
      obtain ⟨hp, hnd2⟩ := hnd
      simp only [List.foldl_cons]
      by_cases hk : p.1 = k
      · unfold alookup at h
        rw [if_pos hk] at h
        injection h with h
        subst hk
        rw [alookup_foldl_mergeStep_not_mem rest _ _ hp]
        unfold mergeStep
        rw [h]
        exact alookup_aset_self _ _ _
      · unfold alookup at h
        rw [if_neg hk] at h
        exact ih hnd2 h

theorem foldlM_mergeStepE_ok :
    ∀ (l : List (String × TaskVal)) (acc m : List (String × TaskInfo)),
      List.foldlM mergeStepE acc l = .ok m → m = l.foldl mergeStep acc := by
  intro l
  induction l with
  | nil =>
      intro acc m h
      injection h with h
      exact h.symm
  | cons p rest ih =>
      intro acc m h
      rw [List.foldlM_cons] at h
      cases hp : p.2 with
      | corrupt =>
          unfold mergeStepE at h
          rw [hp] at h
          simp only [List.foldl_cons]
          cases h
      | parsed t =>
          unfold mergeStepE at h
          rw [hp] at h
          simp only [List.foldl_cons]
          unfold mergeStep
          rw [hp]
          exact ih _ m h

/-- C10: confirmed.  Both merged listings write active entries first and
terminal entries second into the result mapping, so for a job id present
in both partitions (with a parseable terminal record) the returned
mapping holds the terminal record's fields. -/
theorem terminal_record_wins (s : Store) (id : String) (t : TaskInfo)
    (hnd : (s.completed_tasks.map Prod.fst).Nodup)
    (hl : alookup id s.completed_tasks = some (.parsed t)) :
    alookup id (getAllTasksStatus s) = some t ∧
    (∀ m, routeTaskStatus s = .ok m → alookup id m = some t) := by
  constructor
  · exact alookup_foldl_mergeStep hnd hl
  · intro m h
    unfold routeTaskStatus at h
    cases h1 : List.foldlM mergeStepE [] s.tasks_status with
    | error e =>
        rw [h1] at h
        cases h
    | ok m1 =>
        rw [h1] at h
        have h2 : List.foldlM mergeStepE m1 s.completed_tasks = .ok m := h
        have := foldlM_mergeStepE_ok s.completed_tasks m1 m h2
        subst this
        exact alookup_foldl_mergeStep hnd hl

/-- Witness for C10: a store holding the id `t1` in both partitions; the
merged mapping returns the terminal record. -/
theorem terminal_record_wins_witness :
    alookup "t1" (getAllTasksStatus storeDup) = some oldDone ∧
    (∀ m, routeTaskStatus storeDup = .ok m → alookup "t1" m = some oldDone) :=
  terminal_record_wins storeDup "t1" oldDone (by decide) (by decide)

end VideoGen
